import Mathlib

/-!
Verification of the order/payment/stock consistency engine of the store
backend.  The definitions below are a shallow embedding of the TypeScript
services (`OrdersService`, `PaymentsService`, `ProductsService`,
`PayPalService`): database rows become records, the variant table becomes a
function from variant ids to counters, and every service method becomes a
state-passing function that mirrors the source control flow statement by
statement.  Times are modelled in minutes as integers; money amounts are
modelled in hundredths of a currency unit as integers, so the source's
`0.01` price tolerance becomes `1`.
-/

/-- `OrderStatus` enum of the source (`order-status.enum`). -/
inductive OrderStatus
  | PENDING
  | PROCESSING
  | COMPLETED
  | CANCELLED
deriving DecidableEq, Repr

/-- `PaymentStatus` enum of the source (`payment-status.enum`). -/
inductive PaymentStatus
  | PENDING
  | UNPAID
  | PAID
  | FAILED
  | CANCELLED
  | REFUNDED
deriving DecidableEq, Repr

/-- `PaymentMethod` enum of the source (`payment-method.enum`). -/
inductive PaymentMethod
  | PAYPAL
  | COD
  | CREDIT_CARD
deriving DecidableEq, Repr

/-- The NestJS exception classes that the services throw. -/
inductive SvcError
  | badRequest (msg : String)
  | notFound (msg : String)
  | conflict (msg : String)
deriving DecidableEq, Repr

deriving instance DecidableEq for Except

abbrev VariantId := Nat

/-- The two stock counters of a `ProductVariant` row
(`stock_quantity`, `reserved_quantity`; `COALESCE(reserved_quantity, 0)`
is modelled by keeping the counter total). -/
structure VariantStock where
  stockQuantity : Int
  reservedQuantity : Int
deriving DecidableEq, Repr

/-- The variant table: counters per variant id. -/
abbrev StockDB := VariantId → VariantStock

/-- A single-row `UPDATE` on the variant table. -/
def updateVariant (db : StockDB) (v : VariantId) (f : VariantStock → VariantStock) :
    StockDB :=
  fun w => if w = v then f (db w) else db w

/-- A line item as the stock operations see it (variant reference and
quantity). -/
structure OrderItem where
  variantId : VariantId
  quantity : Nat
deriving DecidableEq, Repr

/-- `ProductsService.updateProductStock`: an unguarded
`decrement(stockQuantity, quantity)` on the variant row. -/
def updateProductStock (db : StockDB) (v : VariantId) (q : Nat) : StockDB :=
  updateVariant db v fun s => ⟨s.stockQuantity - q, s.reservedQuantity⟩

/-- `ProductsService.restoreProductStock`: an unguarded
`increment(stockQuantity, quantity)` on the variant row. -/
def restoreProductStock (db : StockDB) (v : VariantId) (q : Nat) : StockDB :=
  updateVariant db v fun s => ⟨s.stockQuantity + q, s.reservedQuantity⟩

/-- The row update performed for one item by
`OrdersService.reserveStockForOrder`:
`stock_quantity - q`, `COALESCE(reserved_quantity, 0) + q`. -/
def reserveFn (it : OrderItem) (s : VariantStock) : VariantStock :=
  ⟨s.stockQuantity - it.quantity, s.reservedQuantity + it.quantity⟩

/-- The row update performed for one item by
`OrdersService.rollbackStockReservation`:
`stock_quantity + q`, `GREATEST(COALESCE(reserved_quantity, 0) - q, 0)`. -/
def rollbackFn (it : OrderItem) (s : VariantStock) : VariantStock :=
  ⟨s.stockQuantity + it.quantity, max (s.reservedQuantity - it.quantity) 0⟩

/-- The row update performed for one item by
`OrdersService.confirmStockReduction`: only
`GREATEST(COALESCE(reserved_quantity, 0) - q, 0)`; stock stays decremented. -/
def confirmFn (it : OrderItem) (s : VariantStock) : VariantStock :=
  ⟨s.stockQuantity, max (s.reservedQuantity - it.quantity) 0⟩

def applyReserve (db : StockDB) (it : OrderItem) : StockDB :=
  updateVariant db it.variantId (reserveFn it)

def rollbackOne (db : StockDB) (it : OrderItem) : StockDB :=
  updateVariant db it.variantId (rollbackFn it)

def confirmOne (db : StockDB) (it : OrderItem) : StockDB :=
  updateVariant db it.variantId (confirmFn it)

/-- `OrdersService.rollbackStockReservation`: undo the reservation updates
for the given (already reserved) items, in list order. -/
def rollbackStockReservation (items : List OrderItem) (db : StockDB) : StockDB :=
  items.foldl rollbackOne db

/-- `OrdersService.confirmStockReduction` body: for each item of the order,
remove the quantity from `reserved_quantity` (clamped at zero); the stock
counter itself was already decremented at reservation time. -/
def confirmStockReduction (items : List OrderItem) (db : StockDB) : StockDB :=
  items.foldl confirmOne db

/-- `OrdersService.releaseReservedStock` body: for each item, restore
`stock_quantity` and remove the quantity from `reserved_quantity`
(clamped at zero). -/
def releaseReservedStock (items : List OrderItem) (db : StockDB) : StockDB :=
  items.foldl (fun d it =>
    updateVariant d it.variantId fun s =>
      ⟨s.stockQuantity + it.quantity, max (s.reservedQuantity - it.quantity) 0⟩) db

/-- `OrdersService.updateStockForSuccessfulPayment` stock loop: for each item
of the order, `updateProductStock` (an unguarded decrement). -/
def updateStockForSuccessfulPayment (items : List OrderItem) (db : StockDB) :
    StockDB :=
  items.foldl (fun d it => updateProductStock d it.variantId it.quantity) db

/-- The error payload of the insufficient-stock `BadRequestException` thrown
by `reserveStockForOrder` (variant, available and requested counts). -/
structure InsufficientStock where
  variantId : VariantId
  available : Int
  requested : Nat
deriving DecidableEq, Repr

/-- The loop of `OrdersService.reserveStockForOrder`.  Each iteration is the
single conditional `UPDATE ... WHERE id = :variantId AND stock_quantity >=
:quantity`; when it affects no row the catch block rolls back the items
reserved so far (`items.slice(0, items.indexOf(item))`, i.e. the prefix
before the failing item) and rethrows.  The database state is returned in
both outcomes because the mutations before the failure persist. -/
def reserveGo : List OrderItem → List OrderItem → StockDB →
    Option InsufficientStock × StockDB
  | [], _done, db => (none, db)
  | it :: rest, done, db =>
    if (it.quantity : Int) ≤ (db it.variantId).stockQuantity then
      reserveGo rest (done ++ [it]) (applyReserve db it)
    else
      (some ⟨it.variantId, (db it.variantId).stockQuantity, it.quantity⟩,
        rollbackStockReservation done db)

/-- `OrdersService.reserveStockForOrder`. -/
def reserveStockForOrder (items : List OrderItem) (db : StockDB) :
    Option InsufficientStock × StockDB :=
  reserveGo items [] db

/-- Applying the reservation updates of all items unconditionally (the state
`reserveStockForOrder` reaches when every stock check passes). -/
def applyReserves (items : List OrderItem) (db : StockDB) : StockDB :=
  items.foldl applyReserve db

/-- Total quantity the item list requests for one variant. -/
def sumQty (items : List OrderItem) (v : VariantId) : Int :=
  ((items.filter (fun it => it.variantId == v)).map
    (fun it => (it.quantity : Int))).sum

example :
    (reserveStockForOrder [⟨0, 2⟩, ⟨1, 1⟩] (fun v => if v = 0 then ⟨2, 0⟩ else ⟨5, 0⟩)).1
      = none := by decide

example :
    ((reserveStockForOrder [⟨0, 2⟩, ⟨1, 1⟩]
        (fun v => if v = 0 then ⟨2, 0⟩ else ⟨5, 0⟩)).2 0).stockQuantity = 0 := by
  decide

example :
    ((reserveStockForOrder [⟨0, 1⟩, ⟨1, 9⟩]
        (fun v => if v = 0 then ⟨2, 0⟩ else ⟨5, 0⟩)).2 0).stockQuantity = 2 := by
  decide

/-! ### Generic lemmas about per-variant folds -/

theorem updateVariant_apply (db : StockDB) (x v : VariantId)
    (f : VariantStock → VariantStock) :
    updateVariant db x f v = if v = x then f (db v) else db v := rfl

theorem foldl_updateVariant (g : OrderItem → VariantStock → VariantStock) :
    ∀ (items : List OrderItem) (db : StockDB) (v : VariantId),
      items.foldl (fun d it => updateVariant d it.variantId (g it)) db v
        = items.foldl (fun s it => if it.variantId == v then g it s else s) (db v) := by
  intro items
  induction items with
  | nil => intro db v; rfl
  | cons it t ih =>
    intro db v
    simp only [List.foldl_cons, ih]
    congr 1
    by_cases h : it.variantId = v
    · simp [updateVariant, h]
    · simp [updateVariant, updateVariant_apply, h, Ne.symm h]

theorem foldl_filter_eq {α β : Type} (p : α → Bool) (f : β → α → β) :
    ∀ (l : List α) (a : β),
      (l.filter p).foldl f a = l.foldl (fun x y => if p y then f x y else x) a := by
  intro l
  induction l with
  | nil => intro a; rfl
  | cons x t ih =>
    intro a
    by_cases h : p x
    · simp [List.filter_cons, h, ih]
    · simp [List.filter_cons, h, ih]

theorem foldl_update_preserve (g : OrderItem → VariantStock → VariantStock)
    (P : VariantStock → Prop) (hstep : ∀ it s, P s → P (g it s)) :
    ∀ (items : List OrderItem) (db : StockDB), (∀ v, P (db v)) →
      ∀ v, P (items.foldl (fun d it => updateVariant d it.variantId (g it)) db v) := by
  intro items
  induction items with
  | nil => intro db h v; exact h v
  | cons it t ih =>
    intro db h v
    simp only [List.foldl_cons]
    refine ih _ (fun w => ?_) v
    rw [updateVariant_apply]
    by_cases hw : w = it.variantId
    · simp only [hw, if_pos rfl]
      exact hstep it _ (h it.variantId)
    · simp only [if_neg hw]
      exact h w

/-! ### Closed form of an all-checks-pass reservation -/

theorem sumQty_cons (it : OrderItem) (t : List OrderItem) (v : VariantId) :
    sumQty (it :: t) v
      = (if it.variantId == v then (it.quantity : Int) else 0) + sumQty t v := by
  by_cases h : it.variantId = v
  · simp [sumQty, List.filter_cons, h]
  · simp [sumQty, List.filter_cons, h]

theorem reserve_scalar_fold (v : VariantId) :
    ∀ (items : List OrderItem) (s : VariantStock),
      items.foldl (fun s it => if it.variantId == v then reserveFn it s else s) s
        = ⟨s.stockQuantity - sumQty items v, s.reservedQuantity + sumQty items v⟩ := by
  intro items
  induction items with
  | nil => intro s; simp [sumQty]
  | cons it t ih =>
    intro s
    rw [sumQty_cons, List.foldl_cons, ih]
    by_cases h : it.variantId = v
    · simp only [h, beq_self_eq_true, if_true, reserveFn, VariantStock.mk.injEq]
      omega
    · have hb : (it.variantId == v) = false := by simp [h]
      simp only [hb, Bool.false_eq_true, if_false, VariantStock.mk.injEq]
      omega

theorem applyReserves_apply (items : List OrderItem) (db : StockDB) (v : VariantId) :
    applyReserves items db v
      = ⟨(db v).stockQuantity - sumQty items v,
          (db v).reservedQuantity + sumQty items v⟩ := by
  have h1 : applyReserves items db v
      = items.foldl (fun s it => if it.variantId == v then reserveFn it s else s) (db v) := by
    simpa [applyReserves, applyReserve] using
      foldl_updateVariant reserveFn items db v
  rw [h1, reserve_scalar_fold]

theorem sumQty_nonneg (items : List OrderItem) (v : VariantId) :
    0 ≤ sumQty items v := by
  refine List.sum_nonneg ?_
  intro x hx
  simp only [List.mem_map] at hx
  obtain ⟨it, _, rfl⟩ := hx
  exact Int.ofNat_nonneg it.quantity

theorem rollback_scalar_fold (v : VariantId) :
    ∀ (items : List OrderItem) (s : VariantStock), 0 ≤ s.reservedQuantity →
      items.foldl (fun s it => if it.variantId == v then rollbackFn it s else s)
        ⟨s.stockQuantity - sumQty items v, s.reservedQuantity + sumQty items v⟩ = s := by
  intro items
  induction items with
  | nil =>
    intro s _
    simp [sumQty]
  | cons it t ih =>
    intro s hs
    have ht : 0 ≤ sumQty t v := sumQty_nonneg t v
    rw [sumQty_cons, List.foldl_cons]
    by_cases h : it.variantId = v
    · simp only [h, beq_self_eq_true, if_true, rollbackFn]
      have h2 :
          (⟨s.stockQuantity - (↑it.quantity + sumQty t v) + ↑it.quantity,
            max (s.reservedQuantity + (↑it.quantity + sumQty t v) - ↑it.quantity) 0⟩ :
              VariantStock)
          = ⟨s.stockQuantity - sumQty t v, s.reservedQuantity + sumQty t v⟩ := by
        simp only [VariantStock.mk.injEq]
        omega
      rw [h2]
      exact ih s hs
    · have hb : (it.variantId == v) = false := by simp [h]
      simp only [hb, Bool.false_eq_true, if_false, zero_add]
      exact ih s hs

theorem rollback_applyReserves (items : List OrderItem) (db : StockDB)
    (hr : ∀ v, 0 ≤ (db v).reservedQuantity) :
    rollbackStockReservation items (applyReserves items db) = db := by
  funext v
  have h1 :
      rollbackStockReservation items (applyReserves items db) v
        = items.foldl (fun s it => if it.variantId == v then rollbackFn it s else s)
            (applyReserves items db v) :=
    foldl_updateVariant rollbackFn items (applyReserves items db) v
  rw [h1, applyReserves_apply]
  exact rollback_scalar_fold v items (db v) (hr v)

theorem applyReserves_append_one (done : List OrderItem) (it : OrderItem)
    (db : StockDB) :
    applyReserves (done ++ [it]) db = applyReserve (applyReserves done db) it := by
  simp [applyReserves, List.foldl_append]

theorem reserveGo_spec :
    ∀ (rest done : List OrderItem) (db0 : StockDB),
      (∀ v, 0 ≤ (db0 v).reservedQuantity) →
      ((reserveGo rest done (applyReserves done db0)).1.isSome →
          (reserveGo rest done (applyReserves done db0)).2 = db0)
      ∧ ((reserveGo rest done (applyReserves done db0)).1 = none →
          (reserveGo rest done (applyReserves done db0)).2
            = applyReserves (done ++ rest) db0) := by
  intro rest
  induction rest with
  | nil =>
    intro done db0 _
    refine ⟨fun h => ?_, fun _ => ?_⟩
    · simp [reserveGo] at h
    · simp [reserveGo]
  | cons it t ih =>
    intro done db0 hr
    by_cases hg :
        (it.quantity : Int) ≤ ((applyReserves done db0) it.variantId).stockQuantity
    · have hstep := applyReserves_append_one done it db0
      have hmain := ih (done ++ [it]) db0 hr
      rw [hstep] at hmain
      have hlist : (done ++ [it]) ++ t = done ++ it :: t := by
        simp
      rw [hlist] at hmain
      simp only [reserveGo, hg, if_true]
      exact hmain
    · simp only [reserveGo, hg, if_false]
      constructor
      · intro _
        exact rollback_applyReserves done db0 hr
      · intro h
        simp at h

/-- `reserveStockForOrder` is all-or-nothing: on success every variant moved
by exactly the requested quantities; on failure the table is exactly as
before the call. -/
theorem reserveStockForOrder_spec (items : List OrderItem) (db : StockDB)
    (hr : ∀ v, 0 ≤ (db v).reservedQuantity) (v : VariantId) :
    (reserveStockForOrder items db).2 v
      = if (reserveStockForOrder items db).1.isSome then db v
        else ⟨(db v).stockQuantity - sumQty items v,
              (db v).reservedQuantity + sumQty items v⟩ := by
  have h0 : applyReserves [] db = db := rfl
  have h := reserveGo_spec items [] db
  rw [h0] at h
  have h := h hr
  cases hres : (reserveGo items [] db).1 with
  | none =>
    have h2 := h.2 hres
    have : reserveStockForOrder items db = reserveGo items [] db := rfl
    rw [this, hres]
    simp only [Option.isSome_none, Bool.false_eq_true, if_false]
    rw [h2]
    simpa using applyReserves_apply items db v
  | some e =>
    have h1 := h.1 (by rw [hres]; rfl)
    have : reserveStockForOrder items db = reserveGo items [] db := rfl
    rw [this, hres]
    simp only [Option.isSome_some, if_true]
    rw [h1]

/-! ### Counters never go negative -/

theorem applyReserve_apply (db : StockDB) (it : OrderItem) (w : VariantId) :
    applyReserve db it w
      = if w = it.variantId then reserveFn it (db w) else db w := rfl

theorem rollback_reserved_nonneg (items : List OrderItem) (db : StockDB)
    (h : ∀ v, 0 ≤ (db v).reservedQuantity) :
    ∀ v, 0 ≤ (rollbackStockReservation items db v).reservedQuantity :=
  foldl_update_preserve rollbackFn (fun s => 0 ≤ s.reservedQuantity)
    (fun _ s _ => le_max_right (s.reservedQuantity - _) 0) items db h

theorem rollback_stock_nonneg (items : List OrderItem) (db : StockDB)
    (h : ∀ v, 0 ≤ (db v).stockQuantity) :
    ∀ v, 0 ≤ (rollbackStockReservation items db v).stockQuantity :=
  foldl_update_preserve rollbackFn (fun s => 0 ≤ s.stockQuantity)
    (fun it s hs => by simp only [rollbackFn]; omega) items db h

theorem reserveGo_reserved_nonneg :
    ∀ (rest done : List OrderItem) (db : StockDB),
      (∀ v, 0 ≤ (db v).reservedQuantity) →
      ∀ v, 0 ≤ ((reserveGo rest done db).2 v).reservedQuantity := by
  intro rest
  induction rest with
  | nil => intro done db h v; exact h v
  | cons it t ih =>
    intro done db h v
    by_cases hg : (it.quantity : Int) ≤ (db it.variantId).stockQuantity
    · simp only [reserveGo, hg, if_true]
      refine ih _ _ (fun w => ?_) v
      rw [applyReserve_apply]
      by_cases hw : w = it.variantId
      · simp only [hw, if_true, reserveFn]
        have := h it.variantId
        omega
      · simp only [if_neg hw]
        exact h w
    · simp only [reserveGo, hg, if_false]
      exact rollback_reserved_nonneg done db h v

theorem reserveGo_stock_nonneg :
    ∀ (rest done : List OrderItem) (db : StockDB),
      (∀ v, 0 ≤ (db v).stockQuantity) →
      ∀ v, 0 ≤ ((reserveGo rest done db).2 v).stockQuantity := by
  intro rest
  induction rest with
  | nil => intro done db h v; exact h v
  | cons it t ih =>
    intro done db h v
    by_cases hg : (it.quantity : Int) ≤ (db it.variantId).stockQuantity
    · simp only [reserveGo, hg, if_true]
      refine ih _ _ (fun w => ?_) v
      rw [applyReserve_apply]
      by_cases hw : w = it.variantId
      · simp only [hw, if_true, reserveFn]
        omega
      · simp only [if_neg hw]
        exact h w
    · simp only [reserveGo, hg, if_false]
      exact rollback_stock_nonneg done db h v

theorem confirm_reserved_nonneg (items : List OrderItem) (db : StockDB)
    (h : ∀ v, 0 ≤ (db v).reservedQuantity) :
    ∀ v, 0 ≤ (confirmStockReduction items db v).reservedQuantity :=
  foldl_update_preserve confirmFn (fun s => 0 ≤ s.reservedQuantity)
    (fun _ s _ => le_max_right (s.reservedQuantity - _) 0) items db h

theorem confirm_stock_nonneg (items : List OrderItem) (db : StockDB)
    (h : ∀ v, 0 ≤ (db v).stockQuantity) :
    ∀ v, 0 ≤ (confirmStockReduction items db v).stockQuantity :=
  foldl_update_preserve confirmFn (fun s => 0 ≤ s.stockQuantity)
    (fun _ _ hs => hs) items db h

theorem release_reserved_nonneg (items : List OrderItem) (db : StockDB)
    (h : ∀ v, 0 ≤ (db v).reservedQuantity) :
    ∀ v, 0 ≤ (releaseReservedStock items db v).reservedQuantity :=
  foldl_update_preserve
    (fun it s => ⟨s.stockQuantity + it.quantity, max (s.reservedQuantity - it.quantity) 0⟩)
    (fun s => 0 ≤ s.reservedQuantity)
    (fun _ s _ => le_max_right (s.reservedQuantity - _) 0) items db h

theorem release_stock_nonneg (items : List OrderItem) (db : StockDB)
    (h : ∀ v, 0 ≤ (db v).stockQuantity) :
    ∀ v, 0 ≤ (releaseReservedStock items db v).stockQuantity :=
  foldl_update_preserve
    (fun it s => ⟨s.stockQuantity + it.quantity, max (s.reservedQuantity - it.quantity) 0⟩)
    (fun s => 0 ≤ s.stockQuantity)
    (fun it s hs => by simp only []; omega) items db h

/-- One operation against the Inventory Ledger, as the claims speak of them:
a whole-order reservation, an order commit (`confirmStockReduction`), an
order release (`releaseReservedStock`), a single-variant unguarded decrement
(`updateProductStock`, used by `updateStockForSuccessfulPayment`), or a
single-variant restore (`restoreProductStock`). -/
inductive StockOp
  | reserve (items : List OrderItem)
  | commit (items : List OrderItem)
  | release (items : List OrderItem)
  | stockUpdate (v : VariantId) (q : Nat)
  | stockRestore (v : VariantId) (q : Nat)
deriving DecidableEq, Repr

def applyStockOp (db : StockDB) : StockOp → StockDB
  | .reserve items => (reserveStockForOrder items db).2
  | .commit items => confirmStockReduction items db
  | .release items => releaseReservedStock items db
  | .stockUpdate v q => updateProductStock db v q
  | .stockRestore v q => restoreProductStock db v q

def runStockOps (db : StockDB) : List StockOp → StockDB
  | [] => db
  | op :: rest => runStockOps (applyStockOp db op) rest

/-- The one operation whose stock decrement carries no quantity check. -/
def StockOp.isUnguardedDecrement : StockOp → Bool
  | .stockUpdate _ _ => true
  | _ => false

theorem updateProductStock_apply (db : StockDB) (x : VariantId) (q : Nat)
    (w : VariantId) :
    updateProductStock db x q w
      = if w = x then ⟨(db w).stockQuantity - q, (db w).reservedQuantity⟩
        else db w := rfl

theorem restoreProductStock_apply (db : StockDB) (x : VariantId) (q : Nat)
    (w : VariantId) :
    restoreProductStock db x q w
      = if w = x then ⟨(db w).stockQuantity + q, (db w).reservedQuantity⟩
        else db w := rfl

theorem runStockOps_reserved_nonneg :
    ∀ (ops : List StockOp) (db : StockDB),
      (∀ v, 0 ≤ (db v).reservedQuantity) →
      ∀ v, 0 ≤ (runStockOps db ops v).reservedQuantity := by
  intro ops
  induction ops with
  | nil => intro db h v; exact h v
  | cons op t ih =>
    intro db h v
    refine ih _ (fun w => ?_) v
    cases op with
    | reserve items => exact reserveGo_reserved_nonneg items [] db h w
    | commit items => exact confirm_reserved_nonneg items db h w
    | release items => exact release_reserved_nonneg items db h w
    | stockUpdate x q =>
      show 0 ≤ (updateProductStock db x q w).reservedQuantity
      rw [updateProductStock_apply]
      by_cases hw : w = x
      · simp only [hw, if_true]; exact h x
      · simp only [if_neg hw]; exact h w
    | stockRestore x q =>
      show 0 ≤ (restoreProductStock db x q w).reservedQuantity
      rw [restoreProductStock_apply]
      by_cases hw : w = x
      · simp only [hw, if_true]; exact h x
      · simp only [if_neg hw]; exact h w

theorem runStockOps_stock_nonneg :
    ∀ (ops : List StockOp) (db : StockDB),
      (∀ v, 0 ≤ (db v).stockQuantity) →
      (∀ op ∈ ops, op.isUnguardedDecrement = false) →
      ∀ v, 0 ≤ (runStockOps db ops v).stockQuantity := by
  intro ops
  induction ops with
  | nil => intro db h _ v; exact h v
  | cons op t ih =>
    intro db h hops v
    refine ih _ (fun w => ?_) (fun o ho => hops o (List.mem_cons_of_mem op ho)) v
    cases op with
    | reserve items => exact reserveGo_stock_nonneg items [] db h w
    | commit items => exact confirm_stock_nonneg items db h w
    | release items => exact release_stock_nonneg items db h w
    | stockUpdate x q =>
      have := hops (.stockUpdate x q) (List.mem_cons_self _ _)
      simp [StockOp.isUnguardedDecrement] at this
    | stockRestore x q =>
      show 0 ≤ (restoreProductStock db x q w).stockQuantity
      rw [restoreProductStock_apply]
      by_cases hw : w = x
      · simp only [hw, if_true]
        have := h x
        omega
      · simp only [if_neg hw]; exact h w

/-! ### Rows and stores -/

/-- An `Order` row, restricted to the fields the claims touch. -/
structure OrderRec where
  id : Nat
  status : OrderStatus
  isPaid : Bool
  createdAt : Int
  paidAt : Option Int
  canceledAt : Option Int
  completedAt : Option Int
  note : Option String
  items : List OrderItem
deriving DecidableEq, Repr

/-- A `Payment` row. -/
structure PaymentRec where
  id : Nat
  orderId : Nat
  method : PaymentMethod
  amount : Int
  status : PaymentStatus
  transactionId : Option String
  note : Option String
  paidAt : Option Int
  createdAt : Int
deriving DecidableEq, Repr

/-- What `PayPalService.captureOrder` extracts from the gateway response. -/
structure CaptureResponse where
  status : String
  captureId : String
  createTime : Int
deriving DecidableEq, Repr

def findOrder (orders : List OrderRec) (id : Nat) : Option OrderRec :=
  orders.find? (fun o => o.id == id)

def saveOrder (orders : List OrderRec) (o : OrderRec) : List OrderRec :=
  orders.map (fun x => if x.id == o.id then o else x)

def savePayment (payments : List PaymentRec) (p : PaymentRec) : List PaymentRec :=
  payments.map (fun x => if x.id == p.id then p else x)

/-! ### OrdersService status operations -/

/-- `OrdersService.updateStatus`: set the status (and optionally the note)
of an order.  The source has no terminal-state guard here. -/
def updateStatus (orders : List OrderRec) (id : Nat) (status : OrderStatus)
    (notes : Option String) : Except SvcError OrderRec × List OrderRec :=
  match findOrder orders id with
  | none => (.error (.notFound "Order not found"), orders)
  | some o =>
    let o2 := { o with status := status,
                       note := match notes with | some n => some n | none => o.note }
    (.ok o2, saveOrder orders o2)

/-- `OrdersService.updateOrderStatus` (admin): set any status, stamping
`canceledAt`/`completedAt` when moving to a terminal status.  No guard on
the current status. -/
def updateOrderStatus (orders : List OrderRec) (id : Nat) (status : OrderStatus)
    (now : Int) : Except SvcError OrderRec × List OrderRec :=
  match findOrder orders id with
  | none => (.error (.notFound "Order not found"), orders)
  | some o =>
    let o2 := { o with status := status,
                       canceledAt := if status = .CANCELLED then some now else o.canceledAt,
                       completedAt := if status = .COMPLETED then some now else o.completedAt }
    (.ok o2, saveOrder orders o2)

/-- `OrdersService.cancelOrder`: rejects orders already `COMPLETED` or
`CANCELLED`, otherwise cancels (the refund branch only logs). -/
def cancelOrder (orders : List OrderRec) (id : Nat) (reason : Option String) :
    Except SvcError OrderRec × List OrderRec :=
  match findOrder orders id with
  | none => (.error (.notFound "Order not found"), orders)
  | some o =>
    if o.status = .COMPLETED ∨ o.status = .CANCELLED then
      (.error (.badRequest "Cannot cancel this order"), orders)
    else
      let o2 := { o with status := .CANCELLED,
                         note := match reason with | some r => some r | none => o.note }
      (.ok o2, saveOrder orders o2)

/-! ### Order creation -/

/-- One entry of `CreateOrderDto.items`. -/
structure CreateOrderItemDto where
  variantId : VariantId
  quantity : Nat
  unitPrice : Int
deriving DecidableEq, Repr

/-- The part of `CreateOrderDto` the embedded flow reads. -/
structure CreateOrderDto where
  items : List CreateOrderItemDto
  subTotal : Int
  discount : Int
  voucherId : Option Nat
  userId : Option Nat
deriving DecidableEq, Repr

/-- Outcome of `VouchersService.validateVoucher` plus the voucher's
`calculateDiscount` at the order subtotal. -/
structure VoucherInfo where
  isValid : Bool
  hasVoucher : Bool
  discount : Int
deriving DecidableEq, Repr

/-- The store state `OrdersService.create` can mutate. -/
structure OrdersState where
  orders : List OrderRec
  db : StockDB
  voucherUsage : Nat → Nat

/-- `OrdersService.validateOrderItems`: per item, check availability
(`checkProductAvailability`, variant stock at least the quantity) and the
price against the catalog within the 0.01 tolerance.  Returns the first
failure. -/
def validateOrderItems (catalog : VariantId → Int) (db : StockDB) :
    List CreateOrderItemDto → Option SvcError
  | [] => none
  | it :: rest =>
    if (db it.variantId).stockQuantity < (it.quantity : Int) then
      some (.badRequest "Product is not available")
    else if 1 < (it.unitPrice - catalog it.variantId).natAbs then
      some (.badRequest "Price mismatch")
    else validateOrderItems catalog db rest

/-- `OrdersService.create`.  Validates items and voucher, then persists the
order in `PENDING`.  Note two facts of the source faithfully kept here: the
`items` property is destructured away before building the order entity
(line 67), and no stock counter is touched — the comment at line 92 says
stock is updated only after successful payment.  Every failure happens
before any store mutation. -/
def ordersCreate (catalog : VariantId → Int) (vsvc : Nat → VoucherInfo)
    (newId : Nat) (now : Int) (dto : CreateOrderDto) (st : OrdersState) :
    Except SvcError OrderRec × OrdersState :=
  match validateOrderItems catalog st.db dto.items with
  | some e => (.error e, st)
  | none =>
    match dto.voucherId with
    | some vid =>
      let vi := vsvc vid
      if vi.isValid = false then
        (.error (.badRequest "Voucher validation failed"), st)
      else if vi.hasVoucher = false then
        (.error (.badRequest "Voucher not found after validation"), st)
      else if 1 < (dto.discount - vi.discount).natAbs then
        (.error (.badRequest "Discount amount mismatch"), st)
      else
        let order : OrderRec := ⟨newId, .PENDING, false, now, none, none, none, none, []⟩
        (.ok order,
          { st with
            orders := st.orders ++ [order],
            voucherUsage := fun w =>
              if w = vid then st.voucherUsage w + 1 else st.voucherUsage w })
    | none =>
      let order : OrderRec := ⟨newId, .PENDING, false, now, none, none, none, none, []⟩
      (.ok order, { st with orders := st.orders ++ [order] })

/-! ### Payments service -/

/-- The store state `PaymentsService` can mutate, plus a counter of
`paypalService.captureOrder` invocations (the Gateway Client capture
calls). -/
structure PayState where
  orders : List OrderRec
  payments : List PaymentRec
  db : StockDB
  gatewayCaptureCalls : Nat

/-- `CreatePaymentDto`. -/
structure CreatePaymentDto where
  orderId : Nat
  method : PaymentMethod
  amount : Int
  note : Option String
deriving DecidableEq, Repr

/-- A payment of the given order in a non-terminal (pending or unpaid)
status — the condition `retryPayment` cancels by. -/
def nonTerminalFor (orderId : Nat) (p : PaymentRec) : Bool :=
  p.orderId == orderId &&
    (p.status == PaymentStatus.PENDING || p.status == PaymentStatus.UNPAID)

/-- The body of the cancellation loop of `retryPayment`. -/
def retryCancel (orderId : Nat) (p : PaymentRec) : PaymentRec :=
  if nonTerminalFor orderId p then
    { p with status := .CANCELLED, note := some "Cancelled due to payment retry" }
  else p

/-- `PaymentsService.create`.  The search for an existing active payment
matches only `status = PENDING` (not `UNPAID`); a found one is cancelled
with an audit note before the fresh payment is persisted.  `gw` stands for
the outcome of `paypalService.createOrder` (the id of the created gateway
order, or a thrown error). -/
def paymentsCreate (gw : Except Unit String) (newId : Nat) (now : Int)
    (dto : CreatePaymentDto) (s : PayState) :
    Except SvcError PaymentRec × PayState :=
  match findOrder s.orders dto.orderId with
  | none => (.error (.notFound "Order not found"), s)
  | some order =>
    if order.isPaid then (.error (.conflict "Order has already been paid"), s)
    else
      let s1 :=
        match s.payments.find?
            (fun p => p.orderId == order.id && p.status == PaymentStatus.PENDING) with
        | some ex =>
          let newNote := some "Cancelled due to new payment creation"
          let cancelled :=
            { ex with status := PaymentStatus.CANCELLED, note := newNote }
          { s with payments := savePayment s.payments cancelled }
        | none => s
      let newPay : PaymentRec :=
        ⟨newId, order.id, dto.method, dto.amount, .PENDING, none, dto.note, none, now⟩
      let s2 := { s1 with payments := s1.payments ++ [newPay] }
      match dto.method with
      | .PAYPAL =>
        match gw with
        | .ok pid =>
          let pay2 := { newPay with transactionId := some pid }
          (.ok pay2, { s2 with payments := savePayment s2.payments pay2 })
        | .error _ => (.error (.badRequest "Failed to create PayPal payment"), s2)
      | .COD =>
        let pay2 := { newPay with status := .UNPAID }
        (.ok pay2, { s2 with payments := savePayment s2.payments pay2 })
      | .CREDIT_CARD =>
        let pay2 := { newPay with status := .UNPAID }
        (.ok pay2, { s2 with payments := savePayment s2.payments pay2 })

/-- `PaymentsService.retryPayment`: cancels every `PENDING` or `UNPAID`
payment of the order with an audit note, persists a fresh `PENDING`
payment, then runs the method-specific branch (`CREDIT_CARD` throws
`Unsupported payment method` here, after the saves). -/
def retryPayment (gw : Except Unit String) (newId : Nat) (now : Int)
    (orderId : Nat) (dto : CreatePaymentDto) (s : PayState) :
    Except SvcError PaymentRec × PayState :=
  match findOrder s.orders orderId with
  | none => (.error (.notFound "Order not found"), s)
  | some order =>
    let ps2 := s.payments.map (retryCancel orderId)
    let newPay : PaymentRec :=
      ⟨newId, order.id, dto.method, dto.amount, .PENDING, none,
        some "Retry payment.", none, now⟩
    let s2 := { s with payments := ps2 ++ [newPay] }
    match dto.method with
    | .PAYPAL =>
      match gw with
      | .ok pid =>
        let pay2 := { newPay with transactionId := some pid }
        (.ok pay2, { s2 with payments := savePayment s2.payments pay2 })
      | .error _ => (.error (.badRequest "Failed to create PayPal payment"), s2)
    | .COD => (.ok newPay, s2)
    | .CREDIT_CARD => (.error (.badRequest "Unsupported payment method"), s2)

/-- `PaymentsService.handlePayPalCallback`.  The first statement is the
gateway capture (`paypalService.captureOrder`) — it runs before the local
payment is even looked up, and no status is checked beforehand.  On capture
status `COMPLETED` the payment is set `PAID`, the order marked paid, and
`updateStockForSuccessfulPayment` decrements the stock of every item; on
any other capture status the payment is set `FAILED`.  Every thrown error
is converted by the outer catch into the same `BadRequestException`. -/
def handlePayPalCallback (capture : Except Unit CaptureResponse) (orderId : Nat)
    (s : PayState) : Except SvcError PaymentRec × PayState :=
  let s1 := { s with gatewayCaptureCalls := s.gatewayCaptureCalls + 1 }
  match capture with
  | .error _ => (.error (.badRequest "Failed to process PayPal callback"), s1)
  | .ok cr =>
    match s1.payments.find? (fun p => p.orderId == orderId) with
    | none => (.error (.badRequest "Failed to process PayPal callback"), s1)
    | some p =>
      let isSuccess := cr.status == "COMPLETED"
      let p2 := { p with
        status := if isSuccess then PaymentStatus.PAID else PaymentStatus.FAILED,
        transactionId := some cr.captureId,
        paidAt := if isSuccess then some cr.createTime else p.paidAt }
      let s2 := { s1 with payments := savePayment s1.payments p2 }
      if isSuccess then
        match findOrder s2.orders orderId with
        | none => (.error (.badRequest "Failed to process PayPal callback"), s2)
        | some o =>
          let o2 := { o with isPaid := true, paidAt := some cr.createTime }
          let s3 := { s2 with orders := saveOrder s2.orders o2 }
          if o2.items.isEmpty then
            (.error (.badRequest "Failed to process PayPal callback"), s3)
          else
            (.ok p2, { s3 with db := updateStockForSuccessfulPayment o2.items s3.db })
      else (.ok p2, s2)

/-! ### Abandonment sweepers -/

/-- One row of the sweeper query: an order joined with its (optional)
payment status. -/
structure AbandonRow where
  ord : OrderRec
  payStatus : Option PaymentStatus
deriving DecidableEq, Repr

def abandonedNote (th : Int) : String :=
  "Cancelled automatically: Order abandoned for more than " ++ toString th
    ++ " minutes"

/-- The `WHERE` clause of `handleAbandonedOrders`: status `PENDING`,
created strictly before `now - threshold`, and payment missing or not
`PAID`. -/
def isAbandoned (now th : Int) (r : AbandonRow) : Bool :=
  r.ord.status == OrderStatus.PENDING && decide (r.ord.createdAt < now - th) &&
    (match r.payStatus with
     | none => true
     | some ps => !(ps == PaymentStatus.PAID))

/-- The per-order mutation of the sweeper loop: `CANCELLED`, cancellation
timestamp, audit note. -/
def cancelAbandoned (now th : Int) (r : AbandonRow) : AbandonRow :=
  let o2 :=
    { r.ord with
      status := OrderStatus.CANCELLED
      canceledAt := some now
      note := some (abandonedNote th) }
  { r with ord := o2 }

def saveAbandonRow (rows : List AbandonRow) (r2 : AbandonRow) : List AbandonRow :=
  rows.map (fun r => if r.ord.id == r2.ord.id then r2 else r)

/-- `OrdersService.handleAbandonedOrders`: select the stale pending orders,
then cancel and save each, counting successes.  The variant table is not an
input of any statement of the method — the source comment says no stock
restore is needed because stock was never decremented at creation — so the
stock database passes through unchanged. -/
def handleAbandonedOrders (th now : Int) (rows : List AbandonRow) (db : StockDB) :
    Nat × List AbandonRow × StockDB :=
  let ab := rows.filter (isAbandoned now th)
  let res := ab.foldl
    (fun acc r => (acc.1 + 1, saveAbandonRow acc.2 (cancelAbandoned now th r)))
    (0, rows)
  (res.1, res.2, db)

def abandonedPaymentNote (th : Int) : String :=
  "Cancelled automatically: Payment abandoned for more than " ++ toString th
    ++ " minutes"

/-- `PaymentsService.handleAbandonedPayments`: cancel `PENDING`/`UNPAID`
payments created strictly before the threshold. -/
def handleAbandonedPayments (th now : Int) (payments : List PaymentRec) :
    Nat × List PaymentRec :=
  let ab := payments.filter (fun p =>
    (p.status == PaymentStatus.PENDING || p.status == PaymentStatus.UNPAID) &&
      decide (p.createdAt < now - th))
  ab.foldl
    (fun acc p =>
      (acc.1 + 1,
        savePayment acc.2
          { p with status := .CANCELLED, note := some (abandonedPaymentNote th) }))
    (0, payments)

/-! ### Lifecycle traces of one order (commit/release exclusivity) -/

/-- `OrdersService.restoreStockForFailedPayment`: restores stock for each
item, but only when the order row it re-reads from the store is `PENDING`
or `CANCELLED`.  The second component records whether any
`restoreProductStock` call was made (a stock release happened). -/
def restoreStockForFailedPayment (ordStatus : OrderStatus)
    (items : List OrderItem) (db : StockDB) : StockDB × Bool :=
  if ordStatus = .PENDING ∨ ordStatus = .CANCELLED then
    (items.foldl (fun d it => restoreProductStock d it.variantId it.quantity) db,
      !items.isEmpty)
  else (db, false)

/-- State of one order, its payment, and the variant table, with two ghost
flags: `committed` is set when `updateStockForSuccessfulPayment` runs its
decrement loop over a nonempty item list, `released` when
`restoreProductStock` is invoked. -/
structure LifeSys where
  ord : OrderRec
  pay : PaymentRec
  db : StockDB
  committed : Bool
  released : Bool

/-- The operations that touch this order: a capture callback with a given
gateway outcome, user cancellation (`cancelOrderForUser`), admin
cancellation (`cancelOrderForAdmin`), and the two sweepers. -/
inductive LifeEv
  | captureCb (outcome : Except Unit CaptureResponse)
  | cancelUser (now : Int) (reason : Option String)
  | cancelAdmin (now : Int) (reason : Option String)
  | sweepOrders (now : Int) (th : Int)
  | sweepPayments (now : Int) (th : Int)

/-- One step of the lifecycle.  Each branch mirrors the corresponding
service method of the source, restricted to a store that holds this one
order and its one payment.

`cancelUser` mirrors `cancelOrderForUser`: the terminal guard, then — when
the payment is `PAID` — `restoreStockForFailedPayment`, which re-reads the
order from the store where its status is still the pre-cancel one because
the cancelled order is saved only afterwards.

`cancelAdmin` mirrors `cancelOrderForAdmin`: guard, save the cancelled
order first, then restore stock when the original status was `PROCESSING`
(the re-read row is by then `CANCELLED`, which passes the restore guard). -/
def lifeStep (s : LifeSys) : LifeEv → LifeSys
  | .captureCb outcome =>
    match outcome with
    | .error _ => s
    | .ok cr =>
      let isSuccess := cr.status == "COMPLETED"
      let p2 := { s.pay with
        status := if isSuccess then PaymentStatus.PAID else PaymentStatus.FAILED,
        transactionId := some cr.captureId,
        paidAt := if isSuccess then some cr.createTime else s.pay.paidAt }
      if isSuccess then
        { s with pay := p2,
                 ord := { s.ord with isPaid := true, paidAt := some cr.createTime },
                 db := updateStockForSuccessfulPayment s.ord.items s.db,
                 committed := s.committed || !s.ord.items.isEmpty }
      else { s with pay := p2 }
  | .cancelUser now reason =>
    if s.ord.status = .COMPLETED ∨ s.ord.status = .CANCELLED then s
    else
      let resPair :=
        if s.pay.status = .PAID then
          restoreStockForFailedPayment s.ord.status s.ord.items s.db
        else (s.db, false)
      let o2 :=
        { s.ord with
          status := OrderStatus.CANCELLED
          canceledAt := some now
          note := match reason with | some r => some r | none => s.ord.note }
      { s with ord := o2, db := resPair.1, released := s.released || resPair.2 }
  | .cancelAdmin now reason =>
    if s.ord.status = .CANCELLED ∨ s.ord.status = .COMPLETED then s
    else
      let newNote :=
        match reason with
        | some r =>
          some (match s.ord.note with
            | some n => n ++ "\n\nCancellation reason: " ++ r
            | none => "Cancellation reason: " ++ r)
        | none => s.ord.note
      let resPair :=
        if s.ord.status = .PROCESSING then
          restoreStockForFailedPayment OrderStatus.CANCELLED s.ord.items s.db
        else (s.db, false)
      let o2 :=
        { s.ord with
          status := OrderStatus.CANCELLED
          canceledAt := some now
          note := newNote }
      { s with ord := o2, db := resPair.1, released := s.released || resPair.2 }
  | .sweepOrders now th =>
    if s.ord.status = .PENDING ∧ s.ord.createdAt < now - th ∧
        s.pay.status ≠ .PAID then
      let o2 :=
        { s.ord with
          status := OrderStatus.CANCELLED
          canceledAt := some now
          note := some (abandonedNote th) }
      { s with ord := o2 }
    else s
  | .sweepPayments now th =>
    if (s.pay.status = .PENDING ∨ s.pay.status = .UNPAID) ∧
        s.pay.createdAt < now - th then
      let p2 :=
        { s.pay with
          status := PaymentStatus.CANCELLED
          note := some (abandonedPaymentNote th) }
      { s with pay := p2 }
    else s

def runLife (s : LifeSys) : List LifeEv → LifeSys
  | [] => s
  | e :: t => runLife (lifeStep s e) t

def LifeEv.isCancelEv : LifeEv → Bool
  | .cancelUser _ _ => true
  | .cancelAdmin _ _ => true
  | _ => false

/-! ### Concrete fixtures -/

/-- Payments of an order that are non-terminal (pending or unpaid). -/
def nonTerminalCount (ps : List PaymentRec) (orderId : Nat) : Nat :=
  (ps.filter (nonTerminalFor orderId)).length

def c1Pay : PaymentRec := ⟨1, 1, .PAYPAL, 100, .PAID, some "t1", none, some 5, 0⟩

def c1Ord : OrderRec := ⟨1, .PENDING, true, 0, some 5, none, none, none, [⟨0, 1⟩]⟩

def c1State : PayState := ⟨[c1Ord], [c1Pay], fun _ => ⟨10, 0⟩, 0⟩

def c1Result : Except SvcError PaymentRec × PayState :=
  handlePayPalCallback (.ok ⟨"DECLINED", "cap2", 6⟩) 1 c1State

def c1ExpectedPay : PaymentRec :=
  { c1Pay with status := PaymentStatus.FAILED, transactionId := some "cap2" }

def c2CompletedOrd : OrderRec := ⟨7, .COMPLETED, true, 0, some 1, none, some 2, none, []⟩

def c4Dto : CreateOrderDto := ⟨[⟨0, 2, 100⟩], 200, 0, none, none⟩

def c4St : OrdersState := ⟨[], fun _ => ⟨5, 0⟩, fun _ => 0⟩

def c4Res : Except SvcError OrderRec × OrdersState :=
  ordersCreate (fun _ => 100) (fun _ => ⟨true, true, 0⟩) 1 0 c4Dto c4St

def c7Init : LifeSys :=
  ⟨⟨1, .PENDING, false, 0, none, none, none, none, [⟨0, 1⟩]⟩,
    ⟨1, 1, .PAYPAL, 100, .PENDING, none, none, none, 0⟩,
    fun _ => ⟨5, 0⟩, false, false⟩

def c7Trace : List LifeEv :=
  [.captureCb (.ok ⟨"COMPLETED", "cap1", 3⟩), .cancelUser 10 none]

def c8Ord : OrderRec := ⟨1, .PENDING, false, 0, none, none, none, none, [⟨0, 1⟩]⟩

def c8Pay : PaymentRec := ⟨1, 1, .COD, 100, .UNPAID, none, none, none, 0⟩

def c8State : PayState := ⟨[c8Ord], [c8Pay], fun _ => ⟨5, 0⟩, 0⟩

def c8Res : Except SvcError PaymentRec × PayState :=
  paymentsCreate (.ok "gw1") 2 1 ⟨1, .COD, 100, none⟩ c8State

def c9Row : AbandonRow :=
  ⟨⟨1, .PENDING, false, 0, none, none, none, none, [⟨0, 2⟩]⟩, some .PENDING⟩

def c9Db : StockDB := fun _ => ⟨3, 2⟩

def c9Res : Nat × List AbandonRow × StockDB :=
  handleAbandonedOrders 60 90 [c9Row] c9Db

/-! ### Counterexamples and evaluations -/

/-- C1: the code at the failing input.  The payment of order 1 is already
terminal (`PAID`), yet a second callback invokes the Gateway capture again
(the call counter grows) and overwrites the recorded `PAID` status with the
new capture outcome `FAILED` — there is no idempotency guard in
`handlePayPalCallback`. -/
theorem c1_no_idempotency_guard_eval :
    c1Pay.status = PaymentStatus.PAID
    ∧ c1Result.2.gatewayCaptureCalls = c1State.gatewayCaptureCalls + 1
    ∧ (c1Result.2.payments.map (·.status)) = [PaymentStatus.FAILED]
    ∧ c1Result.1 = .ok c1ExpectedPay := by
  refine ⟨rfl, rfl, ?_, ?_⟩ <;> decide

/-- C2 counterexample: `updateStatus` on a `COMPLETED` order is not
rejected — it answers `ok` and moves the stored order back to `PENDING`. -/
theorem c2_counterexample :
    (updateStatus [c2CompletedOrd] 7 OrderStatus.PENDING none).1
      = Except.ok { c2CompletedOrd with status := OrderStatus.PENDING }
    ∧ ((updateStatus [c2CompletedOrd] 7 OrderStatus.PENDING none).2.map (·.status))
      = [OrderStatus.PENDING] := by decide

/-- C3 counterexample: a single `updateProductStock` call (one of the
operations the claim quantifies over) drives `stockQuantity` below zero. -/
theorem c3_counterexample :
    ((runStockOps (fun _ => ⟨0, 0⟩) [StockOp.stockUpdate 0 1]) 0).stockQuantity < 0 := by
  decide

/-- C4 counterexample: a successful `create` of an order with a quantity-2
line item leaves the variant counters exactly as before — nothing is
deducted from available stock nor added to reserved stock at creation
time. -/
theorem c4_counterexample :
    c4Res.1 = Except.ok (⟨1, .PENDING, false, 0, none, none, none, none, []⟩ : OrderRec)
    ∧ (c4Res.2.db 0).stockQuantity = 5
    ∧ (c4Res.2.db 0).reservedQuantity = 0
    ∧ (c4St.db 0).stockQuantity = 5
    ∧ (c4St.db 0).reservedQuantity = 0 := by
  refine ⟨?_, ?_, ?_, ?_, ?_⟩ <;> decide

/-- C6 counterexample: committing twice is not a no-op.  With 5 reserved
units (2 of them from this order) `confirmStockReduction` leaves 3 after
one run but 1 after two; and `updateStockForSuccessfulPayment` decrements
the stock again on every run (8 after one, 6 after two). -/
theorem c6_counterexample :
    (confirmStockReduction [⟨0, 2⟩]
        (confirmStockReduction [⟨0, 2⟩] (fun _ => ⟨10, 5⟩)) 0).reservedQuantity = 1
    ∧ (confirmStockReduction [⟨0, 2⟩] (fun _ => ⟨10, 5⟩) 0).reservedQuantity = 3
    ∧ (updateStockForSuccessfulPayment [⟨0, 2⟩]
        (updateStockForSuccessfulPayment [⟨0, 2⟩] (fun _ => ⟨10, 5⟩)) 0).stockQuantity = 6
    ∧ (updateStockForSuccessfulPayment [⟨0, 2⟩] (fun _ => ⟨10, 5⟩) 0).stockQuantity = 8 := by
  refine ⟨?_, ?_, ?_, ?_⟩ <;> decide

/-- C7 counterexample: a successful capture commits the stock, and a
subsequent user cancellation of the now-paid (still `PENDING`) order runs
`restoreStockForFailedPayment` — both ghost flags end `true`, so commit and
release both happen for the same order. -/
theorem c7_counterexample :
    (runLife c7Init c7Trace).committed = true
    ∧ (runLife c7Init c7Trace).released = true
    ∧ ((runLife c7Init c7Trace).db 0).stockQuantity = 5 := by
  refine ⟨?_, ?_, ?_⟩ <;> decide

/-- C8 counterexample: `create` only cancels an existing `PENDING` payment;
an existing `UNPAID` one survives, so after creating a second (COD) payment
the order has two non-terminal payments at once. -/
theorem c8_counterexample :
    nonTerminalCount c8Res.2.payments 1 = 2
    ∧ (c8Res.2.payments.map (·.status)) = [PaymentStatus.UNPAID, PaymentStatus.UNPAID] := by
  refine ⟨?_, ?_⟩ <;> decide

/-- C9 counterexample: the sweep does cancel the stale pending order (with
the audit note) but releases no stock at all — the variant table passes
through the sweeper unchanged, reserved counter included. -/
theorem c9_counterexample :
    (c9Res.2.1.map (fun r => r.ord.status)) = [OrderStatus.CANCELLED]
    ∧ (c9Res.2.1.map (fun r => r.ord.note)) = [some (abandonedNote 60)]
    ∧ c9Res.2.2 = c9Db
    ∧ (c9Res.2.2 0).reservedQuantity = 2
    ∧ (c9Res.2.2 0).stockQuantity = 3 := by
  refine ⟨by decide, by decide, rfl, by decide, by decide⟩

/-! ### Amended properties -/

theorem lifeStep_released_noncancel (s : LifeSys) (e : LifeEv)
    (he : e.isCancelEv = false) :
    (lifeStep s e).released = s.released := by
  cases e with
  | captureCb outcome =>
    cases outcome with
    | error u => rfl
    | ok cr =>
      simp only [lifeStep]
      split <;> rfl
  | cancelUser now reason => simp [LifeEv.isCancelEv] at he
  | cancelAdmin now reason => simp [LifeEv.isCancelEv] at he
  | sweepOrders now th =>
    simp only [lifeStep]
    split <;> rfl
  | sweepPayments now th =>
    simp only [lifeStep]
    split <;> rfl

/-- C7 (amended): without a user or admin cancellation event, a release
never happens, so commit and release remain mutually exclusive on every
such trace.  (The counterexample shows the exclusivity fails once a paid
order is cancelled.) -/
theorem c7_amended_no_release_without_cancel :
    ∀ (evs : List LifeEv) (s : LifeSys), s.released = false →
      (∀ e ∈ evs, e.isCancelEv = false) →
      (runLife s evs).released = false := by
  intro evs
  induction evs with
  | nil => intro s h _; exact h
  | cons e t ih =>
    intro s h hev
    have he := hev e (List.mem_cons_self e t)
    have h2 : (lifeStep s e).released = false := by
      rw [lifeStep_released_noncancel s e he]
      exact h
    exact ih (lifeStep s e) h2 (fun x hx => hev x (List.mem_cons_of_mem e hx))

theorem c7_amended_no_release_without_cancel_witness :
    (runLife c7Init [LifeEv.captureCb (.ok ⟨"COMPLETED", "cap1", 3⟩),
      LifeEv.sweepOrders 100 60, LifeEv.sweepPayments 100 60]).released = false :=
  c7_amended_no_release_without_cancel _ c7Init rfl (by decide)

def c2TermSys : LifeSys :=
  ⟨⟨7, .COMPLETED, true, 0, some 1, none, some 2, none, []⟩,
    ⟨1, 7, .COD, 100, .PAID, none, none, some 1, 0⟩,
    fun _ => ⟨1, 0⟩, false, false⟩

/-- C2 (amended): the cancellation operations (`cancelOrder`,
`cancelOrderForUser`, `cancelOrderForAdmin`) do reject an order that is
already `COMPLETED` or `CANCELLED` with a `BadRequestException` and leave
every field unchanged; `updateStatus`/`updateOrderStatus` carry no such
guard (see the counterexample). -/
theorem c2_amended_terminal_guard (s : LifeSys) (orders : List OrderRec)
    (id : Nat) (reason : Option String) (now : Int)
    (h : s.ord.status = OrderStatus.COMPLETED ∨ s.ord.status = OrderStatus.CANCELLED)
    (h2 : findOrder orders id = some s.ord) :
    lifeStep s (.cancelUser now reason) = s
    ∧ lifeStep s (.cancelAdmin now reason) = s
    ∧ cancelOrder orders id reason
      = (.error (.badRequest "Cannot cancel this order"), orders) := by
  refine ⟨?_, ?_, ?_⟩
  · simp only [lifeStep, if_pos h]
  · have h3 : s.ord.status = OrderStatus.CANCELLED ∨ s.ord.status = OrderStatus.COMPLETED :=
      h.symm
    simp only [lifeStep, if_pos h3]
  · simp only [cancelOrder, h2, if_pos h]

theorem c2_amended_terminal_guard_witness :
    lifeStep c2TermSys (.cancelUser 5 none) = c2TermSys
    ∧ lifeStep c2TermSys (.cancelAdmin 5 none) = c2TermSys
    ∧ cancelOrder [c2TermSys.ord] 7 none
      = (.error (.badRequest "Cannot cancel this order"), [c2TermSys.ord]) :=
  c2_amended_terminal_guard c2TermSys [c2TermSys.ord] 7 none 5 (Or.inl rfl) rfl

theorem updateVariant_self (db : StockDB) (v : VariantId)
    (f : VariantStock → VariantStock) (h : f (db v) = db v) :
    updateVariant db v f = db := by
  funext w
  rw [updateVariant_apply]
  by_cases hw : w = v
  · rw [if_pos hw, hw, h]
  · rw [if_neg hw]

theorem confirm_noop (l : List OrderItem) (db1 : StockDB)
    (h : ∀ it ∈ l, (db1 it.variantId).reservedQuantity = 0) :
    confirmStockReduction l db1 = db1 := by
  induction l with
  | nil => rfl
  | cons it t ih =>
    have hstep : confirmOne db1 it = db1 := by
      refine updateVariant_self db1 it.variantId (confirmFn it) ?_
      have h0 := h it (List.mem_cons_self it t)
      have hexp : db1 it.variantId
          = ⟨(db1 it.variantId).stockQuantity,
              (db1 it.variantId).reservedQuantity⟩ := rfl
      simp only [confirmFn, h0]
      have hmax : max (0 - (it.quantity : Int)) 0 = 0 := by omega
      rw [hmax]
      conv_rhs => rw [hexp]
      rw [h0]
    show confirmStockReduction t (confirmOne db1 it) = db1
    rw [hstep]
    exact ih (fun x hx => h x (List.mem_cons_of_mem it hx))

/-- C6 (amended): `confirmStockReduction` is not flag-tracked; a second run
is a no-op exactly when the first run already drove the reserved counter of
every item's variant to zero (the `GREATEST(..., 0)` clamp), e.g. when this
order held the only reservations.  Otherwise a second run decrements again
(counterexample). -/
theorem c6_amended_commit_idempotent_at_zero (items : List OrderItem)
    (db : StockDB)
    (h : ∀ it ∈ items,
      ((confirmStockReduction items db) it.variantId).reservedQuantity = 0) :
    confirmStockReduction items (confirmStockReduction items db)
      = confirmStockReduction items db :=
  confirm_noop items (confirmStockReduction items db) h

theorem c6_amended_commit_idempotent_at_zero_witness :
    confirmStockReduction [⟨0, 2⟩] (confirmStockReduction [⟨0, 2⟩] (fun _ => ⟨10, 2⟩))
      = confirmStockReduction [⟨0, 2⟩] (fun _ => ⟨10, 2⟩) :=
  c6_amended_commit_idempotent_at_zero [⟨0, 2⟩] (fun _ => ⟨10, 2⟩) (by decide)

/-- C10: `reservedQuantity` never becomes negative under any sequence of
ledger operations: every decrement of the reserved counter goes through the
`GREATEST(COALESCE(reserved_quantity, 0) - q, 0)` clamp, and the other
operations only add to it or leave it alone. -/
theorem c10_reserved_never_negative (db : StockDB)
    (h : ∀ v, 0 ≤ (db v).reservedQuantity) (ops : List StockOp) (v : VariantId) :
    0 ≤ (runStockOps db ops v).reservedQuantity :=
  runStockOps_reserved_nonneg ops db h v

theorem c10_reserved_never_negative_witness :
    0 ≤ (runStockOps (fun _ => ⟨3, 0⟩)
      [StockOp.commit [⟨0, 5⟩], StockOp.release [⟨0, 2⟩],
        StockOp.reserve [⟨0, 1⟩], StockOp.commit [⟨0, 9⟩]] 0).reservedQuantity :=
  c10_reserved_never_negative (fun _ => ⟨3, 0⟩) (fun _ => le_refl 0) _ 0

/-- C3 (amended): the reservation path is guarded (`stock_quantity >=
quantity` inside the conditional `UPDATE`), and commits, releases, rollbacks
and restores never push `stockQuantity` below zero; but `updateProductStock`
is an unguarded decrement, so sequences containing it can (see the
counterexample). -/
theorem c3_amended_guarded_ops_stock_nonneg (db : StockDB)
    (h : ∀ v, 0 ≤ (db v).stockQuantity) (ops : List StockOp)
    (hops : ∀ op ∈ ops, op.isUnguardedDecrement = false) (v : VariantId) :
    0 ≤ (runStockOps db ops v).stockQuantity :=
  runStockOps_stock_nonneg ops db h hops v

theorem c3_amended_guarded_ops_stock_nonneg_witness :
    0 ≤ (runStockOps (fun _ => ⟨2, 0⟩)
      [StockOp.reserve [⟨0, 2⟩], StockOp.commit [⟨0, 2⟩],
        StockOp.release [⟨0, 2⟩], StockOp.stockRestore 0 1] 0).stockQuantity :=
  c3_amended_guarded_ops_stock_nonneg (fun _ => ⟨2, 0⟩)
    (fun _ => by show (0 : Int) ≤ 2; decide) _ (by decide) 0

def c5Db : StockDB := fun v => if v = 0 then ⟨2, 0⟩ else ⟨5, 0⟩

/-- C5: `reserveStockForOrder` is all-or-nothing.  When it succeeds, every
variant's stock drops and reserved count rises by exactly the total
quantity the item list requests for it; when any item's stock check fails,
the rollback of the already-reserved prefix restores the table exactly
(given the invariant that reserved counters are nonnegative, so the
`GREATEST` clamp never distorts the rollback). -/
theorem c5_reserve_all_or_nothing (items : List OrderItem) (db : StockDB)
    (hr : ∀ v, 0 ≤ (db v).reservedQuantity) (v : VariantId) :
    (reserveStockForOrder items db).2 v
      = if (reserveStockForOrder items db).1.isSome then db v
        else ⟨(db v).stockQuantity - sumQty items v,
              (db v).reservedQuantity + sumQty items v⟩ :=
  reserveStockForOrder_spec items db hr v

theorem c5_reserve_all_or_nothing_witness :
    (reserveStockForOrder [⟨0, 1⟩, ⟨1, 9⟩] c5Db).1.isSome = true
    ∧ (reserveStockForOrder [⟨0, 1⟩, ⟨1, 9⟩] c5Db).2 0 = c5Db 0 := by
  constructor
  · decide
  · have h := c5_reserve_all_or_nothing [⟨0, 1⟩, ⟨1, 9⟩] c5Db
      (by intro v; by_cases hv : v = 0 <;> simp [c5Db, hv]) 0
    rw [h]
    decide

/-- C4 (amended): a successful `create` persists the order in `PENDING` and
appends it to the store, but touches no stock counter at creation time —
deduction is deferred to payment success (the source comment at lines
92–93) — and every validation failure returns before any mutation. -/
theorem c4_amended_create_pending_no_stock
    (catalog : VariantId → Int) (vsvc : Nat → VoucherInfo) (newId : Nat)
    (now : Int) (dto : CreateOrderDto) (st : OrdersState) (o : OrderRec)
    (st2 : OrdersState)
    (h : ordersCreate catalog vsvc newId now dto st = (Except.ok o, st2)) :
    o.status = OrderStatus.PENDING ∧ st2.db = st.db
    ∧ st2.orders = st.orders ++ [o] := by
  unfold ordersCreate at h
  split at h
  · simp at h
  · split at h
    · dsimp only [] at h
      split at h
      · simp at h
      · split at h
        · simp at h
        · split at h
          · simp at h
          · rw [Prod.mk.injEq] at h
            obtain ⟨h1, h2⟩ := h
            rw [Except.ok.injEq] at h1
            subst h1
            subst h2
            exact ⟨rfl, rfl, rfl⟩
    · rw [Prod.mk.injEq] at h
      obtain ⟨h1, h2⟩ := h
      rw [Except.ok.injEq] at h1
      subst h1
      subst h2
      exact ⟨rfl, rfl, rfl⟩

def c4Ord : OrderRec := ⟨1, .PENDING, false, 0, none, none, none, none, []⟩

def c4St2 : OrdersState := { c4St with orders := c4St.orders ++ [c4Ord] }

theorem c4_amended_create_pending_no_stock_witness :
    c4Ord.status = OrderStatus.PENDING ∧ c4St2.db = c4St.db
    ∧ c4St2.orders = c4St.orders ++ [c4Ord] :=
  c4_amended_create_pending_no_stock (fun _ => 100) (fun _ => ⟨true, true, 0⟩)
    1 0 c4Dto c4St c4Ord c4St2 rfl

theorem retryCancel_not_nonterminal (orderId : Nat) (p : PaymentRec) :
    nonTerminalFor orderId (retryCancel orderId p) = false := by
  unfold retryCancel
  by_cases h : nonTerminalFor orderId p = true
  · rw [if_pos h]
    simp [nonTerminalFor]
  · rw [if_neg h]
    simpa using h

theorem mem_savePayment {L : List PaymentRec} {p2 x : PaymentRec}
    (hx : x ∈ savePayment L p2) : x = p2 ∨ x ∈ L := by
  unfold savePayment at hx
  rw [List.mem_map] at hx
  obtain ⟨y, hy, hxy⟩ := hx
  by_cases hid : (y.id == p2.id) = true
  · rw [if_pos hid] at hxy
    exact Or.inl hxy.symm
  · rw [if_neg hid] at hxy
    exact Or.inr (hxy ▸ hy)

theorem retry_list_nonterminal (orderId : Nat) (ps : List PaymentRec)
    (extra p : PaymentRec)
    (hp : p ∈ ps.map (retryCancel orderId) ++ [extra])
    (hpred : nonTerminalFor orderId p = true) : p = extra := by
  rw [List.mem_append] at hp
  cases hp with
  | inl hmap =>
    rw [List.mem_map] at hmap
    obtain ⟨y, _, rfl⟩ := hmap
    rw [retryCancel_not_nonterminal] at hpred
    exact absurd hpred (by simp)
  | inr hex =>
    simpa using hex

/-- C8 (amended): `retryPayment` does cancel every non-terminal (`PENDING`
or `UNPAID`) payment of the order before persisting the fresh one, so in
the resulting store the only non-terminal payment of the order is the newly
created one (whatever the method branch or gateway outcome does
afterwards).  `create`, by contrast, only cancels a `PENDING` payment and
leaves an `UNPAID` one alive (counterexample). -/
theorem c8_amended_retry_single_nonterminal
    (gw : Except Unit String) (newId : Nat) (now : Int) (orderId : Nat)
    (dto : CreatePaymentDto) (s : PayState) (ord : OrderRec)
    (h : findOrder s.orders orderId = some ord) :
    ∀ p ∈ (retryPayment gw newId now orderId dto s).2.payments,
      nonTerminalFor orderId p = true → p.id = newId := by
  intro p hp hpred
  unfold retryPayment at hp
  rw [h] at hp
  cases hdm : dto.method
  all_goals rw [hdm] at hp
  case PAYPAL =>
    cases hgw : gw
    all_goals rw [hgw] at hp
    case error u =>
      dsimp only [] at hp
      have hpe := retry_list_nonterminal orderId s.payments _ p hp hpred
      rw [hpe]
    case ok pid =>
      dsimp only [] at hp
      rcases mem_savePayment hp with hp2 | hp3
      · rw [hp2]
      · have hpe := retry_list_nonterminal orderId s.payments _ p hp3 hpred
        rw [hpe]
  case COD =>
    dsimp only [] at hp
    have hpe := retry_list_nonterminal orderId s.payments _ p hp hpred
    rw [hpe]
  case CREDIT_CARD =>
    dsimp only [] at hp
    have hpe := retry_list_nonterminal orderId s.payments _ p hp hpred
    rw [hpe]

theorem c8_amended_retry_single_nonterminal_witness :
    ((retryPayment (.ok "gw2") 5 2 1 ⟨1, .COD, 100, none⟩ c8State).2.payments.filter
      (nonTerminalFor 1)).all (fun p => p.id == 5) = true := by
  rw [List.all_eq_true]
  intro p hp
  rw [List.mem_filter] at hp
  have hid := c8_amended_retry_single_nonterminal (.ok "gw2") 5 2 1
    ⟨1, .COD, 100, none⟩ c8State c8Ord rfl p hp.1 hp.2
  simp [hid]

theorem cancelAbandoned_id (now th : Int) (r : AbandonRow) :
    (cancelAbandoned now th r).ord.id = r.ord.id := rfl

theorem foldl_count_rows (now th : Int) :
    ∀ (ab : List AbandonRow) (n : Nat) (rows : List AbandonRow),
      ab.foldl
        (fun acc r => (acc.1 + 1, saveAbandonRow acc.2 (cancelAbandoned now th r)))
        (n, rows)
      = (n + ab.length,
         ab.foldl (fun acc r => saveAbandonRow acc (cancelAbandoned now th r)) rows) := by
  intro ab
  induction ab with
  | nil => intro n rows; simp
  | cons r t ih =>
    intro n rows
    rw [List.foldl_cons, List.foldl_cons, ih]
    refine Prod.ext ?_ rfl
    simp
    omega

theorem foldl_save_eq_map (now th : Int) :
    ∀ (ab rows : List AbandonRow),
      ab.foldl (fun acc r => saveAbandonRow acc (cancelAbandoned now th r)) rows
        = rows.map (fun x =>
            ab.foldl (fun y r =>
              if y.ord.id == (cancelAbandoned now th r).ord.id
              then cancelAbandoned now th r else y) x) := by
  intro ab
  induction ab with
  | nil => intro rows; simp
  | cons r t ih =>
    intro rows
    rw [List.foldl_cons, ih]
    show (saveAbandonRow rows (cancelAbandoned now th r)).map _ = _
    unfold saveAbandonRow
    rw [List.map_map]
    rfl

theorem fold_step_no_match (now th : Int) :
    ∀ (ab : List AbandonRow) (x : AbandonRow),
      (∀ r ∈ ab, x.ord.id ≠ r.ord.id) →
      ab.foldl (fun y r =>
        if y.ord.id == (cancelAbandoned now th r).ord.id
        then cancelAbandoned now th r else y) x = x := by
  intro ab
  induction ab with
  | nil => intro x _; rfl
  | cons r t ih =>
    intro x hx
    rw [List.foldl_cons]
    have hne : x.ord.id ≠ (cancelAbandoned now th r).ord.id := by
      rw [cancelAbandoned_id]
      exact hx r (List.mem_cons_self r t)
    have hb : (x.ord.id == (cancelAbandoned now th r).ord.id) = false := by
      simpa using hne
    rw [hb]
    simp only [Bool.false_eq_true, if_false]
    exact ih x (fun q hq => hx q (List.mem_cons_of_mem r hq))

theorem fold_step_single_match (now th : Int) (l1 l2 : List AbandonRow)
    (x : AbandonRow)
    (h1 : ∀ r ∈ l1, x.ord.id ≠ r.ord.id)
    (h2 : ∀ r ∈ l2, x.ord.id ≠ r.ord.id) :
    (l1 ++ x :: l2).foldl (fun y r =>
        if y.ord.id == (cancelAbandoned now th r).ord.id
        then cancelAbandoned now th r else y) x
      = cancelAbandoned now th x := by
  rw [List.foldl_append, fold_step_no_match now th l1 x h1, List.foldl_cons]
  have hb : (x.ord.id == (cancelAbandoned now th x).ord.id) = true := by
    rw [cancelAbandoned_id]
    exact beq_self_eq_true x.ord.id
  rw [hb]
  simp only [if_true]
  refine fold_step_no_match now th l2 (cancelAbandoned now th x) ?_
  intro r hr
  rw [cancelAbandoned_id]
  exact h2 r hr

/-- C9 (amended): the order sweeper cancels exactly the orders that are
`PENDING`, have no `PAID` payment, and were created strictly before
`now - threshold` — stamping the cancellation timestamp and the audit note —
and leaves every other row (younger, non-pending, or paid) untouched; but
it releases no stock: the variant table passes through unchanged (the code
never reserved stock at creation, so its comment says none needs
restoring). -/
theorem c9_amended_sweep_exact_no_release (th now : Int)
    (rows : List AbandonRow) (db : StockDB)
    (hnd : (rows.map (fun r => r.ord.id)).Nodup) :
    handleAbandonedOrders th now rows db
      = ((rows.filter (isAbandoned now th)).length,
         rows.map (fun r =>
           if isAbandoned now th r then cancelAbandoned now th r else r),
         db) := by
  unfold handleAbandonedOrders
  dsimp only []
  rw [foldl_count_rows, foldl_save_eq_map]
  refine Prod.ext (by simp) (Prod.ext ?_ rfl)
  show rows.map _ = rows.map _
  refine List.map_congr_left ?_
  intro x hx
  by_cases hPx : isAbandoned now th x = true
  · have hxab : x ∈ rows.filter (isAbandoned now th) :=
      List.mem_filter.mpr ⟨hx, hPx⟩
    obtain ⟨l1, l2, hsplit⟩ := List.append_of_mem hxab
    have habnd : ((rows.filter (isAbandoned now th)).map (fun r => r.ord.id)).Nodup :=
      hnd.sublist ((List.filter_sublist rows).map _)
    rw [hsplit] at habnd
    simp only [List.map_append, List.map_cons, List.nodup_append,
      List.nodup_cons] at habnd
    obtain ⟨hn1, ⟨hnx, hn2⟩, hdisj⟩ := habnd
    have h1 : ∀ r ∈ l1, x.ord.id ≠ r.ord.id := by
      intro r hr heq
      exact hdisj (List.mem_map_of_mem _ hr)
        (heq ▸ List.mem_cons_self x.ord.id (l2.map (fun r => r.ord.id)))
    have h2 : ∀ r ∈ l2, x.ord.id ≠ r.ord.id := by
      intro r hr heq
      exact hnx (heq ▸ List.mem_map_of_mem (fun r => r.ord.id) hr)
    rw [hsplit, fold_step_single_match now th l1 l2 x h1 h2, if_pos hPx]
  · have hno : ∀ r ∈ rows.filter (isAbandoned now th), x.ord.id ≠ r.ord.id := by
      intro r hr heq
      have hrrows : r ∈ rows := (List.mem_filter.mp hr).1
      have hPr : isAbandoned now th r = true := (List.mem_filter.mp hr).2
      have hxr : x = r := List.inj_on_of_nodup_map hnd hx hrrows heq
      rw [hxr] at hPx
      exact hPx hPr
    rw [fold_step_no_match now th _ x hno, if_neg hPx]

theorem c9_amended_sweep_exact_no_release_witness :
    handleAbandonedOrders 60 90 [c9Row] c9Db
      = (([c9Row].filter (isAbandoned 90 60)).length,
         [c9Row].map (fun r =>
           if isAbandoned 90 60 r then cancelAbandoned 90 60 r else r),
         c9Db) :=
  c9_amended_sweep_exact_no_release 60 90 [c9Row] c9Db (by decide)
